import Mathlib

/-!
# Verification of the Eyes scripted-behavior engine

A shallow embedding of the script store, script execution engine, behavior
manager and director of the Eyes repository, with theorems settling the
frozen claims about them.

Conventions used throughout:

* JS numbers are modelled as `ℚ` (no claim here depends on float rounding).
* Timestamps (`Date.now()`) are `ℚ` milliseconds.
* `setTimeout` handles are `Nat` ids drawn from a counter; the pending timer
  set is an explicit list, and `clearTimeout` removes from it.
* External rendering collaborators (`startEyeSetAnimations`,
  `stopEyeSetAnimations`, `startEyeSetTracking`, `stopEyeSetTracking`) are
  modelled as boolean flags on the eye-set, since the claims only speak of
  them being started/stopped/unchanged.
* Action handlers are modelled as emitted events: invoking a handler appends
  an `Event.handlerInvoked` record rather than running rendering code.
-/

namespace Eyes

/-- Behavior enumeration (`BehaviorType` in the source). -/
inductive BehaviorType
  | autonomous
  | tracking
  | scripted
deriving DecidableEq, Repr

/-- Parameter bag of a timeline entry. The engine itself only reads the
optional numeric `duration` field (`lastAction.params?.duration`); the rest
of the bag is opaque to the engine and passed through to action handlers. -/
structure Params where
  duration : Option ℚ := none
  rest : List (String × ℚ) := []
deriving DecidableEq, Repr

/-- A loosely typed JSON value, for the fields that `validateScript` inspects
dynamically (`typeof action.time !== 'number'`). -/
inductive JsVal
  | num (q : ℚ)
  | str (s : String)
  | undef
deriving DecidableEq, Repr

/-- A timeline entry as it appears in the raw JSON, before validation. -/
structure RawEntry where
  time : JsVal
  action : Option String
  params : Option Params := none
deriving DecidableEq, Repr

/-- An `interactions` entry (`{targetSet, startTime, scriptId?}`). -/
structure Interaction where
  targetSet : Nat
  startTime : ℚ
  scriptId : Option String := none
deriving DecidableEq, Repr

/-- A script definition as it appears in the raw JSON, before validation.
`none` on `timeline` models an absent field (`Array.isArray` fails). -/
structure RawScript where
  scriptId : Option String
  name : Option String
  description : Option String := none
  duration : Option ℚ := none
  timeline : Option (List RawEntry)
  interactions : Option (List Interaction) := none
deriving DecidableEq, Repr

/-- JS truthiness of an optional string field: absent or empty is falsy. -/
def truthyStr : Option String → Bool
  | none => false
  | some s => !s.isEmpty

/-- `validateScript` from the source: requires truthy `scriptId` and `name`,
`timeline` present as an array, and every timeline entry to have a numeric
`time` and a truthy `action`.  (It does not require the timeline to be
non-empty, nor `time` to be non-negative.) -/
def validateScript (script : RawScript) : Bool :=
  match script.timeline with
  | none => false
  | some tl =>
    truthyStr script.scriptId && truthyStr script.name &&
      tl.all fun a =>
        (match a.time with | .num _ => true | _ => false) && truthyStr a.action

/-- Numeric value of an entry's `time`.  The sort comparator
`(a, b) => a.time - b.time` only runs on validated (numeric) times, so the
default `0` for non-numeric times is never reached after validation. -/
def entryTime (e : RawEntry) : ℚ :=
  match e.time with
  | .num q => q
  | _ => 0

/-- Insert an entry into an already-sorted suffix, before the first entry
with a strictly larger or equal-and-originally-later `time`.  Together with
`sortTimeline` this models the ECMAScript stable
`timeline.sort((a, b) => a.time - b.time)`. -/
def insertByTime (e : RawEntry) : List RawEntry → List RawEntry
  | [] => [e]
  | x :: xs => if entryTime x < entryTime e then x :: insertByTime e xs else e :: x :: xs

/-- Stable ascending sort of the timeline by `time`. -/
def sortTimeline : List RawEntry → List RawEntry
  | [] => []
  | e :: es => insertByTime e (sortTimeline es)

/-- A validated timeline entry, as stored in the script cache. -/
structure Entry where
  time : ℚ
  action : String
  params : Option Params
deriving DecidableEq, Repr

/-- View of a raw entry after validation guaranteed numeric time and a
present action name. -/
def toEntry (e : RawEntry) : Entry :=
  { time := entryTime e, action := e.action.getD "", params := e.params }

/-- A loaded, validated script definition (`ScriptObject` in the source). -/
structure ScriptObject where
  scriptId : String
  name : String
  duration : ℚ
  timeline : List Entry
  interactions : Option (List Interaction)
deriving DecidableEq, Repr

/-- `lastAction.time + (lastAction.params?.duration || 0)` over the sorted
timeline; `none` models the `TypeError` thrown when the timeline is empty
(`timeline[-1]` is `undefined`), which `loadScript` catches, returning
`null`. -/
def durationFromTimeline (sorted : List RawEntry) : Option ℚ :=
  match sorted.getLast? with
  | none => none
  | some last => some (entryTime last + (last.params.bind Params.duration).getD 0)

/-- The duration stored by `loadScript`: the declared `duration` when truthy
(`!scriptObject.duration` is false), otherwise computed from the sorted
timeline's last entry. -/
def computeDuration (declared : Option ℚ) (sorted : List RawEntry) : Option ℚ :=
  match declared with
  | some d => if d != 0 then some d else durationFromTimeline sorted
  | none => durationFromTimeline sorted

/-- The script cache (`scriptExecutionState.loadedScripts`), an
insertion-ordered map. -/
abbrev ScriptStore := List (String × ScriptObject)

/-- Assoc-list lookup, modelling `Map.get` / object property access. -/
def findA {α β : Type} [DecidableEq α] (k : α) : List (α × β) → Option β
  | [] => none
  | (k', v) :: rest => if k = k' then some v else findA k rest

/-- Assoc-list insert-or-update (`Map.set`), preserving insertion order. -/
def setA {α β : Type} [DecidableEq α] (k : α) (v : β) : List (α × β) → List (α × β)
  | [] => [(k, v)]
  | (k', v') :: rest => if k = k' then (k, v) :: rest else (k', v') :: setA k v rest

/-- Assoc-list removal (`Map.delete`). -/
def eraseA {α β : Type} [DecidableEq α] (k : α) : List (α × β) → List (α × β)
  | [] => []
  | (k', v') :: rest => if k = k' then rest else (k', v') :: eraseA k rest

/-- `loadScript` from the source.  `env` models the script directory backing
`fetch`: `env id = none` is a missing or unreadable resource (the thrown
error is caught and `null` returned).  On a cache hit the cached object is
returned; otherwise the raw definition is validated, its timeline sorted,
the duration computed if not truthy, and the result cached under the
requested id.  Every failure returns `none` and caches nothing. -/
def loadScript (store : ScriptStore) (env : String → Option RawScript)
    (scriptId : String) : ScriptStore × Option ScriptObject :=
  match findA scriptId store with
  | some obj => (store, some obj)
  | none =>
    match env scriptId with
    | none => (store, none)
    | some raw =>
      if validateScript raw then
        let sorted := sortTimeline (raw.timeline.getD [])
        match computeDuration raw.duration sorted with
        | none => (store, none)
        | some dur =>
          let obj : ScriptObject :=
            { scriptId := raw.scriptId.getD ""
              name := raw.name.getD ""
              duration := dur
              timeline := sorted.map toEntry
              interactions := raw.interactions }
          (setA scriptId obj store, some obj)
      else (store, none)

/-! ## Script execution engine -/

/-- The work a pending `setTimeout` callback will perform when it fires. -/
inductive Task
  | timeline (setIndex : Nat) (action : String) (params : Params)
  | interaction (parentInst : Nat) (targetSet : Nat) (scriptId : String)
  | completion (setIndex : Nat)
deriving DecidableEq, Repr

/-- A pending timer: a `setTimeout` handle, its absolute due time in
milliseconds, and the callback it will run. -/
structure Timer where
  id : Nat
  due : ℚ
  task : Task
deriving DecidableEq, Repr

/-- `ScriptInstance` from the source.  Instances are heap objects shared by
reference between `eyeSet.currentScript` and
`scriptExecutionState.scriptInstances`; we give each a numeric identity and
keep the objects in a store on the engine state.  `onComplete` is an
arbitrary callback; we model only its presence, and record its invocation as
an event. -/
structure ScriptInstance where
  scriptObject : ScriptObject
  setIndex : Nat
  startTime : ℚ
  scheduledActions : List Nat
  interactionInstances : List Nat
  isRunning : Bool
  hasOnComplete : Bool
deriving DecidableEq, Repr

/-- The engine-relevant fields of an eye set.  `animationsRunning` and
`trackingRunning` stand for the external rendering collaborator's
autonomous-animation and focal-tracking loops
(`start`/`stopEyeSetAnimations`, `start`/`stopEyeSetTracking`). -/
structure EyeSet where
  visible : Bool
  behavior : BehaviorType
  currentScript : Option Nat
  lastBehaviorChange : ℚ
  animationsRunning : Bool
  trackingRunning : Bool
deriving DecidableEq, Repr

/-- Observable effects, recorded most recent first. -/
inductive Event
  | handlerInvoked (setIndex : Nat) (action : String) (params : Params)
  | unknownAction (action : String)
  | onCompleteInvoked (setIndex : Nat)
  | saveState
deriving DecidableEq, Repr

/-- `directorState` from the source (the pending evaluation handle is not
modelled; the claims under verification do not involve rescheduling). -/
structure DirectorState where
  enabled : Bool := false
  mode : String := "active"
  lastScriptTime : ℚ := 0
  scriptCooldown : ℚ := 5000
  evaluationInterval : ℚ := 8000
  triggerProbabilities : List (String × ℚ) :=
    [("autonomous", 0.5), ("tracking", 0.2), ("scripted", 0.3)]
  interactionChance : ℚ := 0.3
deriving DecidableEq, Repr

/-- The whole mutable state the engine and director operate on: the eye-set
array (entries may be absent, as in the JS array), the instance heap, the
`scriptInstances` map, the script cache, default script assignments, the
pending-timer set with its handle counter, the wall clock, the stream of
values `Math.random()` will yield next, and the event log. -/
structure EngineState where
  eyeSets : List (Option EyeSet)
  instances : List (Nat × ScriptInstance)
  scriptInstances : List (Nat × Nat)
  loadedScripts : ScriptStore
  defaultScripts : List (Nat × String)
  timers : List Timer
  nextTimerId : Nat
  nextInstanceId : Nat
  now : ℚ
  randoms : List ℚ
  events : List Event
  director : DirectorState
deriving DecidableEq, Repr

/-- `eyeSets[setIndex]`, absent slots and out-of-range reads both yielding
`undefined`. -/
def getEyeSet (st : EngineState) (setIndex : Nat) : Option EyeSet :=
  (st.eyeSets.getD setIndex none)

/-- Overwrite the eye set at `setIndex` (no-op out of range, like `List.set`). -/
def putEyeSet (st : EngineState) (setIndex : Nat) (e : EyeSet) : EngineState :=
  { st with eyeSets := st.eyeSets.set setIndex (some e) }

/-- Pop the next `Math.random()` value (defaulting to `0` on an exhausted
stream, which no theorem relies on). -/
def popRand (st : EngineState) : ℚ × EngineState :=
  match st.randoms with
  | [] => (0, st)
  | r :: rs => (r, { st with randoms := rs })

/-- The keys of `actionRegistry` from the source. -/
def actionRegistryKeys : List String :=
  ["blink", "moveIris", "setScale", "setGap", "setPosition", "playSound",
   "crossEyes", "uncrossEyes", "rollEyes", "widen", "squint", "lookAt",
   "dart", "shake", "startDripping", "stopDripping", "setColor", "fadeColor"]

/-- `executeAction` from the source: bail out silently when the eye set is
absent or not visible; then dispatch on the registry, logging unknown
actions; a resolved handler invocation is recorded as an event. -/
def executeAction (st : EngineState) (setIndex : Nat) (actionName : String)
    (params : Params) : EngineState :=
  match getEyeSet st setIndex with
  | none => st
  | some eyeSet =>
    if !eyeSet.visible then st
    else if actionRegistryKeys.contains actionName then
      { st with events := .handlerInvoked setIndex actionName params :: st.events }
    else
      { st with events := .unknownAction actionName :: st.events }

/-- Allocate the timers for the timeline of a starting script: one per entry,
due `entry.time * 1000` ms from `now`, with fresh consecutive handles.
Returns the new timers, their handles in order, and the bumped counter. -/
def scheduleEntries (setIndex : Nat) (now : ℚ) :
    List Entry → Nat → List Timer × List Nat × Nat
  | [], nid => ([], [], nid)
  | e :: es, nid =>
    let t : Timer :=
      { id := nid, due := now + e.time * 1000,
        task := .timeline setIndex e.action (e.params.getD {}) }
    let (ts, ids, nid') := scheduleEntries setIndex now es (nid + 1)
    (t :: ts, nid :: ids, nid')

/-- Allocate the timers for the `interactions` of a starting script: each
fires a recursive `executeScript` on the target set at `startTime * 1000` ms
from `now`, running the interaction's own script id when given, else the
parent's. -/
def scheduleInteractions (parentInst : Nat) (fallbackScriptId : String) (now : ℚ) :
    List Interaction → Nat → List Timer × List Nat × Nat
  | [], nid => ([], [], nid)
  | i :: is, nid =>
    let t : Timer :=
      { id := nid, due := now + i.startTime * 1000,
        task := .interaction parentInst i.targetSet (i.scriptId.getD fallbackScriptId) }
    let (ts, ids, nid') := scheduleInteractions parentInst fallbackScriptId now is (nid + 1)
    (t :: ts, nid :: ids, nid')

/-- `executeScript` from the source.  Returns the created instance's id, or
`none` when the eye set is absent or invisible or the script cannot be
loaded.  On success it stops the autonomous animations, switches the set to
scripted, registers a fresh running instance, and schedules the timeline,
interaction and completion timers.  (Note: it does not stop a previously
running script instance; it only overwrites `currentScript` and the
`scriptInstances` entry.) -/
def executeScript (env : String → Option RawScript) (st : EngineState)
    (setIndex : Nat) (scriptId : String) : EngineState × Option Nat :=
  match getEyeSet st setIndex with
  | none => (st, none)
  | some eyeSet =>
    if !eyeSet.visible then (st, none)
    else
      let (store', obj?) := loadScript st.loadedScripts env scriptId
      let st := { st with loadedScripts := store' }
      match obj? with
      | none => (st, none)
      | some obj =>
        -- stopEyeSetAnimations(setIndex)
        let eyeSet := { eyeSet with animationsRunning := false }
        -- behavior := SCRIPTED; lastBehaviorChange := Date.now()
        let eyeSet := { eyeSet with
          behavior := .scripted, lastBehaviorChange := st.now }
        let instId := st.nextInstanceId
        let (tlTimers, tlIds, nid₁) :=
          scheduleEntries setIndex st.now obj.timeline st.nextTimerId
        let (inTimers, inIds, nid₂) :=
          scheduleInteractions instId scriptId st.now
            (obj.interactions.getD []) nid₁
        let compTimer : Timer :=
          { id := nid₂, due := st.now + obj.duration * 1000,
            task := .completion setIndex }
        let inst : ScriptInstance :=
          { scriptObject := obj, setIndex := setIndex, startTime := st.now,
            scheduledActions := tlIds ++ inIds ++ [nid₂],
            interactionInstances := [], isRunning := true,
            hasOnComplete := false }
        let eyeSet := { eyeSet with currentScript := some instId }
        let st := putEyeSet st setIndex eyeSet
        let st := { st with
          instances := setA instId inst st.instances
          scriptInstances := setA setIndex instId st.scriptInstances
          timers := st.timers ++ tlTimers ++ inTimers ++ [compTimer]
          nextTimerId := nid₂ + 1
          nextInstanceId := instId + 1 }
        (st, some instId)

/-- `completeScript` from the source: no-op when the eye set is absent or has
no current script; otherwise clears (cancels) every handle in the instance's
own `scheduledActions`, marks it stopped, invokes `onComplete` if set, nulls
`currentScript`, drops the `scriptInstances` entry, returns the set to
autonomous behavior with a fresh `lastBehaviorChange`, and restarts the
autonomous animations. -/
def completeScript (st : EngineState) (setIndex : Nat) : EngineState :=
  match getEyeSet st setIndex with
  | none => st
  | some eyeSet =>
    match eyeSet.currentScript with
    | none => st
    | some instId =>
      match findA instId st.instances with
      | none => st
      | some inst =>
        let st := { st with
          timers := st.timers.filter fun t => !inst.scheduledActions.contains t.id }
        let inst' := { inst with isRunning := false, scheduledActions := [] }
        let st := { st with instances := setA instId inst' st.instances }
        let st :=
          if inst.hasOnComplete then
            { st with events := .onCompleteInvoked setIndex :: st.events }
          else st
        let eyeSet := { eyeSet with
          currentScript := none
          behavior := .autonomous
          lastBehaviorChange := st.now
          animationsRunning := true }
        let st := putEyeSet st setIndex eyeSet
        { st with scriptInstances := eraseA setIndex st.scriptInstances }

/-- `stopScript` from the source: manual interrupt, delegating to
`completeScript` when the eye set exists and has a current script. -/
def stopScript (st : EngineState) (setIndex : Nat) : EngineState :=
  match getEyeSet st setIndex with
  | none => st
  | some eyeSet =>
    match eyeSet.currentScript with
    | none => st
    | some _ => completeScript st setIndex

/-! ## Deferred-callback execution (the host's timer facility) -/

/-- Run the callback body of a fired timer.  A timeline timer calls
`executeAction`; an interaction timer recursively calls `executeScript` on
the target set and registers the resulting child instance in the parent's
`interactionInstances` (write-only bookkeeping in the source: the list is
never read, and the source actually pushes the promise unconditionally); a
completion timer calls `completeScript`. -/
def runTask (env : String → Option RawScript) (st : EngineState) : Task → EngineState
  | .timeline setIndex actionName params => executeAction st setIndex actionName params
  | .interaction parentInst targetSet scriptId =>
    let (st', child?) := executeScript env st targetSet scriptId
    match child? with
    | none => st'
    | some childId =>
      match findA parentInst st'.instances with
      | none => st'
      | some parent =>
        let parent' :=
          { parent with
            interactionInstances := parent.interactionInstances ++ [childId] }
        { st' with instances := setA parentInst parent' st'.instances }
  | .completion setIndex => completeScript st setIndex

/-- Fire a pending timer: a no-op for a handle that is not pending (i.e. was
cancelled with `clearTimeout` or has already fired); otherwise the wall
clock advances to the timer's due time, the timer leaves the pending set,
and its callback runs. -/
def fireTimer (env : String → Option RawScript) (st : EngineState) (tid : Nat) :
    EngineState :=
  match st.timers.find? (fun t => t.id == tid) with
  | none => st
  | some t =>
    runTask env
      { st with timers := st.timers.filter (fun t' => t'.id != tid), now := t.due }
      t.task

/-! ## Behavior manager -/

/-- `setEyeBehavior` from the source: tear down the current behavior's
resources (stop the script when scripted with a current script, the
tracking loop when tracking, the idle animations otherwise), then assign
the new behavior, stamp `lastBehaviorChange`, start the new behavior's
resources (scripts are not auto-started), and schedule a state save. -/
def setEyeBehavior (st : EngineState) (setIndex : Nat) (behavior : BehaviorType) :
    EngineState :=
  match getEyeSet st setIndex with
  | none => st
  | some eyeSet =>
    let st :=
      match eyeSet.behavior, eyeSet.currentScript with
      | .scripted, some _ => stopScript st setIndex
      | .tracking, _ => putEyeSet st setIndex { eyeSet with trackingRunning := false }
      | _, _ => putEyeSet st setIndex { eyeSet with animationsRunning := false }
    match getEyeSet st setIndex with
    | none => st
    | some eyeSet =>
      let eyeSet := { eyeSet with behavior := behavior, lastBehaviorChange := st.now }
      let eyeSet :=
        match behavior with
        | .autonomous => { eyeSet with animationsRunning := true }
        | .tracking => { eyeSet with trackingRunning := true }
        | .scripted => eyeSet
      let st := putEyeSet st setIndex eyeSet
      { st with events := .saveState :: st.events }

/-- The cycle order `[AUTONOMOUS, TRACKING, SCRIPTED]` from `cycleBehavior`. -/
def behaviorCycleList : List BehaviorType := [.autonomous, .tracking, .scripted]

/-- `cycleBehavior` from the source: advance to the next behavior in the
cycle; when landing on scripted, run the set's default script if one is
assigned, and otherwise fall back to `setEyeBehavior(setIndex, AUTONOMOUS)`. -/
def cycleBehavior (env : String → Option RawScript) (st : EngineState)
    (setIndex : Nat) : EngineState :=
  match getEyeSet st setIndex with
  | none => st
  | some eyeSet =>
    let currentIndex := behaviorCycleList.indexOf eyeSet.behavior
    let nextBehavior :=
      behaviorCycleList.getD ((currentIndex + 1) % behaviorCycleList.length) .autonomous
    match nextBehavior with
    | .scripted =>
      match findA setIndex st.defaultScripts with
      | some defaultScript => (executeScript env st setIndex defaultScript).1
      | none => setEyeBehavior st setIndex .autonomous
    | _ => setEyeBehavior st setIndex nextBehavior

/-! ## Director -/

/-- The cumulative walk of `weightedRandomChoice`: accumulate mass in
insertion order and return the first key whose cumulative mass the draw
falls strictly below. -/
def wrcLoop (rand : ℚ) : ℚ → List (String × ℚ) → Option String
  | _, [] => none
  | cumulative, (choice, probability) :: rest =>
    if rand < cumulative + probability then some choice
    else wrcLoop rand (cumulative + probability) rest

/-- `weightedRandomChoice` from the source: cumulative-distribution sampling
over an insertion-ordered probability table, falling back to the table's
first key when the walk leaves the draw unconsumed (and `undefined`, here
`none`, on an empty table). -/
def weightedRandomChoice (weights : List (String × ℚ)) (rand : ℚ) : Option String :=
  match wrcLoop rand 0 weights with
  | some choice => some choice
  | none => weights.head?.map Prod.fst

/-- `directorConfig.scriptWeights` from the source state module. -/
def scriptWeights : List (String × ℚ) :=
  [("surprise", 1.0), ("cross_eyes", 0.8), ("roll_eyes", 0.9), ("sleepy", 0.6),
   ("angry", 0.7), ("curious", 0.9), ("scared", 0.7), ("confused", 0.8),
   ("shifty", 1.5), ("sync_blink", 1.2), ("wave", 1.0), ("conversation", 1.5),
   ("dance", 1.2)]

/-- `directorConfig.conditions.multipleEyesVisible.scriptPreferences`. -/
def multipleEyesPrefs : List String := ["conversation", "sync_blink", "wave", "dance"]

/-- `directorConfig.conditions.singleEyeVisible.scriptPreferences`. -/
def singleEyePrefs : List String :=
  ["surprise", "roll_eyes", "sleepy", "angry", "curious", "scared", "shifty"]

/-- Pop the head of a `Math.random()` stream. -/
def popR : List ℚ → ℚ × List ℚ
  | [] => (0, [])
  | r :: rs => (r, rs)

/-- The subtractive walk of `weightedRandomScriptChoice`. -/
def wrsLoop : ℚ → List String → Option String
  | _, [] => none
  | rand, id :: rest =>
    let weight := (findA id scriptWeights).getD 1.0
    if rand - weight ≤ 0 then some id else wrsLoop (rand - weight) rest

/-- `weightedRandomScriptChoice` from the source: filter the preference list
to scripts that are loaded and weighted, return `null` when none remain
(without consuming a random draw), and otherwise draw `rand * totalWeight`
and walk the weights subtractively, falling back to the first available id. -/
def weightedRandomScriptChoice (loaded : ScriptStore) (scriptIds : List String)
    (randoms : List ℚ) : Option String × List ℚ :=
  let available := scriptIds.filter fun id =>
    (findA id loaded).isSome && (findA id scriptWeights).isSome
  match available with
  | [] => (none, randoms)
  | _ =>
    let totalWeight := (available.map fun id => (findA id scriptWeights).getD 1.0).sum
    let (r, randoms') := popR randoms
    match wrsLoop (r * totalWeight) available with
    | some id => (some id, randoms')
    | none => (available.head?, randoms')

/-- `triggerDirectorScript` from the source: decide interaction-vs-solo (the
Bernoulli draw happens only when more than one eye set is visible, because
of `&&` short-circuiting), select a script id from the corresponding
preference list, and on success start it with `executeScript`.  When no
script is eligible nothing is started. -/
def triggerDirectorScript (env : String → Option RawScript) (st : EngineState)
    (setIndex : Nat) (visibleCount : Nat) : EngineState :=
  let (shouldInteract, st) :=
    if visibleCount > 1 then
      let (r, st) := popRand st
      (decide (r < st.director.interactionChance), st)
    else (false, st)
  let prefs := if shouldInteract then multipleEyesPrefs else singleEyePrefs
  let (scriptId?, randoms') := weightedRandomScriptChoice st.loadedScripts prefs st.randoms
  let st := { st with randoms := randoms' }
  match scriptId? with
  | some scriptId => (executeScript env st setIndex scriptId).1
  | none => st

/-- The body of `evaluateDirector`'s per-eye-set loop: skip a set that is
running a script or changed behavior less than 3000 ms ago; otherwise draw
from the trigger probabilities and either switch the behavior (only when it
differs) or trigger a director script — and in the scripted case stamp the
global `lastScriptTime` with the evaluation's `now`, *after*
`triggerDirectorScript` and regardless of whether it started anything. -/
def directorStepSet (env : String → Option RawScript) (now : ℚ) (visibleCount : Nat)
    (st : EngineState) (idx : Nat) : EngineState :=
  match getEyeSet st idx with
  | none => st
  | some es =>
    if es.currentScript.isSome || decide (now - es.lastBehaviorChange < 3000) then st
    else
      let (r, st) := popRand st
      match weightedRandomChoice st.director.triggerProbabilities r with
      | none => st
      | some a =>
        if a = "autonomous" then
          if es.behavior ≠ .autonomous then setEyeBehavior st idx .autonomous else st
        else if a = "tracking" then
          if es.behavior ≠ .tracking then setEyeBehavior st idx .tracking else st
        else if a = "scripted" then
          let st := triggerDirectorScript env st idx visibleCount
          { st with director := { st.director with lastScriptTime := now } }
        else st

/-- The indices of the visible eye sets, in array order (the
`visibleSets` array computed at the top of `evaluateDirector`). -/
def visibleIndices (st : EngineState) : List Nat :=
  (List.range st.eyeSets.length).filter fun idx =>
    match getEyeSet st idx with
    | some e => e.visible
    | none => false

/-- `evaluateDirector` from the source (minus the self-rescheduling, which
every branch performs identically): bail out when disabled; skip the whole
evaluation when no set is visible or the global script cooldown has not
elapsed; otherwise run the per-set loop over the visible sets. -/
def evaluateDirector (env : String → Option RawScript) (st : EngineState) :
    EngineState :=
  if !st.director.enabled then st
  else
    let now := st.now
    let visible := visibleIndices st
    if visible.isEmpty then st
    else if now - st.director.lastScriptTime < st.director.scriptCooldown then st
    else visible.foldl (directorStepSet env now visible.length) st

/-! ## Helper lemmas -/

theorem getEyeSet_isSome_lt {st : EngineState} {idx : Nat} {e : EyeSet}
    (h : getEyeSet st idx = some e) : idx < st.eyeSets.length := by
  by_contra hlt
  rw [getEyeSet, List.getD_eq_getElem?_getD, List.getElem?_eq_none (by omega)] at h
  simp at h

theorem getEyeSet_putEyeSet_self {st : EngineState} {idx : Nat} (e : EyeSet)
    (h : idx < st.eyeSets.length) : getEyeSet (putEyeSet st idx e) idx = some e := by
  rw [getEyeSet, putEyeSet, List.getD_eq_getElem?_getD, List.getElem?_set_self h]
  rfl

theorem length_putEyeSet (st : EngineState) (idx : Nat) (e : EyeSet) :
    (putEyeSet st idx e).eyeSets.length = st.eyeSets.length := by
  simp [putEyeSet]

/-- A failed `loadScript` caches nothing: the store comes back unchanged. -/
theorem loadScript_none_store_eq {store : ScriptStore}
    {env : String → Option RawScript} {scriptId : String}
    (h : (loadScript store env scriptId).2 = none) :
    (loadScript store env scriptId).1 = store := by
  rcases hf : findA scriptId store with _ | obj
  · rcases he : env scriptId with _ | raw
    · simp [loadScript, hf, he]
    · rcases hv : validateScript raw with _ | _
      · simp [loadScript, hf, he, hv]
      · rcases hd : computeDuration raw.duration (sortTimeline (raw.timeline.getD []))
          with _ | dur
        · simp [loadScript, hf, he, hv, hd]
        · exfalso
          simp [loadScript, hf, he, hv, hd] at h
  · exfalso
    simp [loadScript, hf] at h

theorem not_mem_of_filter_not_contains {timers : List Timer} {ids : List Nat}
    {t : Timer} (ht : t ∈ timers.filter fun t' => !ids.contains t'.id)
    {tid : Nat} (hid : tid ∈ ids) : t.id ≠ tid := by
  have hc := List.of_mem_filter ht
  intro he
  rw [he] at hc
  rw [Bool.not_eq_true', ← Bool.not_eq_true] at hc
  exact hc (List.contains_iff_exists_mem_beq.mpr ⟨tid, hid, by simp⟩)

/-! ## Sortedness and stability of the timeline sort -/

theorem mem_insertByTime {e y : RawEntry} {l : List RawEntry} :
    y ∈ insertByTime e l ↔ y = e ∨ y ∈ l := by
  induction l with
  | nil => simp [insertByTime]
  | cons x xs ih =>
    rw [insertByTime]
    split <;> (simp only [List.mem_cons, ih]; try tauto)

theorem pairwise_insertByTime {e : RawEntry} {l : List RawEntry}
    (h : l.Pairwise fun a b => entryTime a ≤ entryTime b) :
    (insertByTime e l).Pairwise fun a b => entryTime a ≤ entryTime b := by
  induction l with
  | nil => simp [insertByTime]
  | cons x xs ih =>
    rw [List.pairwise_cons] at h
    obtain ⟨hx, hxs⟩ := h
    rw [insertByTime]
    split
    · rename_i hlt
      rw [List.pairwise_cons]
      refine ⟨?_, ih hxs⟩
      intro y hy
      rcases mem_insertByTime.mp hy with rfl | hy
      · linarith
      · exact hx y hy
    · rename_i hge
      push_neg at hge
      rw [List.pairwise_cons]
      refine ⟨?_, List.pairwise_cons.mpr ⟨hx, hxs⟩⟩
      intro y hy
      rcases List.mem_cons.mp hy with rfl | hy
      · exact hge
      · exact le_trans hge (hx y hy)

theorem sortTimeline_pairwise (l : List RawEntry) :
    (sortTimeline l).Pairwise fun a b => entryTime a ≤ entryTime b := by
  induction l with
  | nil => simp [sortTimeline]
  | cons e es ih => exact pairwise_insertByTime ih

theorem filter_insertByTime (e : RawEntry) (l : List RawEntry) (t : ℚ) :
    (insertByTime e l).filter (fun a => entryTime a = t)
      = (e :: l).filter (fun a => entryTime a = t) := by
  induction l with
  | nil => rfl
  | cons x xs ih =>
    rw [insertByTime]
    split
    · rename_i hlt
      by_cases hx : entryTime x = t <;> by_cases he : entryTime e = t
      · exfalso
        rw [hx, he] at hlt
        exact lt_irrefl t hlt
      · simp [List.filter_cons, hx, he, ih]
      · simp [List.filter_cons, hx, he, ih]
      · simp [List.filter_cons, hx, he, ih]
    · rfl

theorem filter_sortTimeline (l : List RawEntry) (t : ℚ) :
    (sortTimeline l).filter (fun a => entryTime a = t)
      = l.filter (fun a => entryTime a = t) := by
  induction l with
  | nil => rfl
  | cons e es ih =>
    rw [sortTimeline, filter_insertByTime]
    simp only [List.filter_cons, ih]

/-! ## The cumulative-mass description of `weightedRandomChoice` -/

/-- Cumulative mass of the table at index `i`: the sum of the first `i + 1`
weights in insertion order. -/
def cumulativeMass (weights : List (String × ℚ)) (i : Nat) : ℚ :=
  ((weights.take (i + 1)).map Prod.snd).sum

/-- The first index whose cumulative mass strictly exceeds the draw. -/
def firstCumExceeding (weights : List (String × ℚ)) (r : ℚ) : Option Nat :=
  (List.range weights.length).find? fun i => decide (r < cumulativeMass weights i)

/-- The claim's description of the weighted draw: the first key whose
cumulative mass strictly exceeds `r`, falling back to the table's first key
when the accumulated mass never exceeds `r`. -/
def specWeightedChoice (weights : List (String × ℚ)) (r : ℚ) : Option String :=
  match firstCumExceeding weights r with
  | some i => (weights[i]?).map Prod.fst
  | none => weights.head?.map Prod.fst

theorem wrcLoop_eq_find (rand : ℚ) (ws : List (String × ℚ)) (c : ℚ) :
    wrcLoop rand c ws
      = ((List.range ws.length).find? fun i => decide (rand < c + cumulativeMass ws i)).bind
          fun i => (ws[i]?).map Prod.fst := by
  induction ws generalizing c with
  | nil => rfl
  | cons kp rest ih =>
    obtain ⟨k, p⟩ := kp
    have hmass0 : cumulativeMass ((k, p) :: rest) 0 = p := by
      simp [cumulativeMass]
    have hmassS : ∀ i : Nat, cumulativeMass ((k, p) :: rest) (i + 1)
        = p + cumulativeMass rest i := by
      intro i
      simp [cumulativeMass]
    rw [wrcLoop, List.length_cons, List.range_succ_eq_map]
    by_cases h0 : rand < c + p
    · rw [if_pos h0, List.find?_cons_of_pos _ (by rw [hmass0]; exact decide_eq_true h0)]
      simp
    · rw [if_neg h0, List.find?_cons_of_neg _ (by rw [hmass0]; simpa using h0),
        List.find?_map, ih (c + p)]
      have hpred : ((fun i => decide (rand < c + cumulativeMass ((k, p) :: rest) i))
            ∘ Nat.succ)
          = fun i => decide (rand < c + p + cumulativeMass rest i) := by
        funext i
        simp only [Function.comp_apply, hmassS]
        rw [← add_assoc]
      rw [hpred]
      rcases (List.range rest.length).find?
          fun i => decide (rand < c + p + cumulativeMass rest i) with _ | i
      · rfl
      · simp

/-! ## Concrete fixtures for witnesses and counterexamples

Batteries marks the `Rat` arithmetic irreducible, which would keep `decide`
from evaluating the model on concrete states; the proofs below only need it
restored to the ordinary reducibility, with everything still checked by the
kernel. -/

set_option allowUnsafeReducibility true

attribute [semireducible] Rat.add Rat.mul Rat.sub Rat.div Rat.inv
  Rat.ofScientific

/-- A visible autonomous eye set with no script. -/
def sampleEyeSet : EyeSet :=
  { visible := true, behavior := .autonomous, currentScript := none,
    lastBehaviorChange := 0, animationsRunning := true, trackingRunning := false }

/-- An invisible eye set. -/
def hiddenEyeSet : EyeSet := { sampleEyeSet with visible := false }

/-- A loadable one-entry script (`blink` at 5 s, 6 s long). -/
def rawBlink : RawScript :=
  { scriptId := some "blinky", name := some "Blinky",
    timeline := some [⟨.num 5, some "blink", none⟩], duration := some 6 }

/-- A second loadable script (`moveIris` at 1 s, 2 s long). -/
def rawWave : RawScript :=
  { scriptId := some "wavey", name := some "Wavey",
    timeline := some [⟨.num 1, some "moveIris", none⟩], duration := some 2 }

/-- A script whose `interactions` entry pulls eye set 1 in after 1 s. -/
def rawDuet : RawScript :=
  { scriptId := some "duet", name := some "Duet",
    timeline := some [⟨.num 10, some "blink", none⟩], duration := some 20,
    interactions := some [⟨1, 1, none⟩] }

/-- The script directory used by the concrete scenarios. -/
def sampleEnv : String → Option RawScript := fun id =>
  if id = "blinky" then some rawBlink
  else if id = "wavey" then some rawWave
  else if id = "duet" then some rawDuet
  else none

/-- A ground state: one visible eye set, empty caches, clock at 1000 ms. -/
def sampleState : EngineState :=
  { eyeSets := [some sampleEyeSet], instances := [], scriptInstances := [],
    loadedScripts := [], defaultScripts := [], timers := [], nextTimerId := 0,
    nextInstanceId := 0, now := 1000, randoms := [], events := [],
    director := {} }

/-- `sampleState` with its only eye set hidden. -/
def hiddenState : EngineState :=
  { sampleState with eyeSets := [some hiddenEyeSet] }

/-! ## C10 -/

/-- C10: `executeAction(setIndex, actionName, params)` invokes no action
handler when the eye set at `setIndex` does not exist or is not visible:
even for a registered action name, the whole state — in particular the
event log recording handler invocations — is returned unchanged, so the
handler dispatch is only ever reached for an existing, visible eye set. -/
theorem executeAction_no_handler_without_visible_set
    (st : EngineState) (setIndex : Nat) (actionName : String) (params : Params)
    (h : getEyeSet st setIndex = none
      ∨ ∃ e, getEyeSet st setIndex = some e ∧ e.visible = false) :
    executeAction st setIndex actionName params = st := by
  rcases h with h | ⟨e, he, hv⟩
  · simp [executeAction, h]
  · simp [executeAction, he, hv]

/-- Witness for C10: on a hidden eye set the registered action `blink`
leaves the state untouched. -/
theorem executeAction_no_handler_without_visible_set_witness :
    executeAction hiddenState 0 "blink" {} = hiddenState :=
  executeAction_no_handler_without_visible_set hiddenState 0 "blink" {}
    (Or.inr ⟨hiddenEyeSet, rfl, rfl⟩)

/-! ## C5 -/

/-- C5: `executeScript(setIndex, scriptId)` is atomic on failure: when the
eye set does not exist, or is not visible, or the script definition cannot
be loaded, the call returns no instance and the state comes back exactly as
it was — behavior, `currentScript`, `lastBehaviorChange`, the animation
flags and the pending timers of every eye set are all unchanged (a failing
load also caches nothing, so even the script store is unchanged). -/
theorem executeScript_failure_no_mutation
    (env : String → Option RawScript) (st : EngineState) (setIndex : Nat)
    (scriptId : String)
    (h : getEyeSet st setIndex = none
      ∨ (∃ e, getEyeSet st setIndex = some e ∧ e.visible = false)
      ∨ (loadScript st.loadedScripts env scriptId).2 = none) :
    executeScript env st setIndex scriptId = (st, none) := by
  rcases h with h | ⟨e, he, hv⟩ | h
  · simp [executeScript, h]
  · simp [executeScript, he, hv]
  · rcases hget : getEyeSet st setIndex with _ | e
    · simp [executeScript, hget]
    · by_cases hv : e.visible
      · have hstore := loadScript_none_store_eq h
        rcases hl : loadScript st.loadedScripts env scriptId with ⟨store', obj?⟩
        rw [hl] at h hstore
        simp only at h hstore
        subst h
        subst hstore
        simp [executeScript, hget, hv, hl]
      · simp [executeScript, hget, hv]

/-- Witness for C5: on the hidden eye set, `executeScript` returns no
instance and the exact input state. -/
theorem executeScript_failure_no_mutation_witness :
    executeScript sampleEnv hiddenState 0 "blinky" = (hiddenState, none) :=
  executeScript_failure_no_mutation sampleEnv hiddenState 0 "blinky"
    (Or.inr (Or.inl ⟨hiddenEyeSet, rfl, rfl⟩))

/-! ## C7 -/

/-- C7: for a script loaded fresh from its raw definition, the cached
timeline is sorted ascending by `time` regardless of the input order, and
for each time value the entries carrying it appear in their original input
order (stable sort). -/
theorem loadScript_timeline_sorted_stable
    (store : ScriptStore) (env : String → Option RawScript) (scriptId : String)
    (store' : ScriptStore) (obj : ScriptObject) (raw : RawScript)
    (hmiss : findA scriptId store = none) (henv : env scriptId = some raw)
    (hload : loadScript store env scriptId = (store', some obj)) :
    obj.timeline.Pairwise (fun a b => a.time ≤ b.time)
      ∧ ∀ t : ℚ, obj.timeline.filter (fun a => a.time = t)
          = ((raw.timeline.getD []).map toEntry).filter (fun a => a.time = t) := by
  rcases hv : validateScript raw with _ | _
  · exfalso
    simp [loadScript, hmiss, henv, hv] at hload
  · rcases hd : computeDuration raw.duration (sortTimeline (raw.timeline.getD []))
        with _ | dur
    · exfalso
      simp [loadScript, hmiss, henv, hv, hd] at hload
    · simp only [loadScript, hmiss, henv, hv, if_true, hd, Prod.mk.injEq,
        Option.some.injEq] at hload
      obtain ⟨-, ho⟩ := hload
      subst ho
      constructor
      · rw [List.pairwise_map]
        exact sortTimeline_pairwise _
      · intro t
        rw [List.filter_map, List.filter_map]
        have hp : ((fun a : Entry => decide (a.time = t)) ∘ toEntry)
            = fun e : RawEntry => decide (entryTime e = t) := by
          funext e
          rfl
        rw [hp, filter_sortTimeline]

/-- An unsorted raw timeline with a duplicated time value. -/
def rawShuffle : RawScript :=
  { scriptId := some "shuffle", name := some "Shuffle", duration := some 9,
    timeline := some
      [⟨.num 2, some "blink", none⟩,
       ⟨.num 1, some "dart", none⟩,
       ⟨.num 1, some "shake", none⟩] }

/-- A directory serving only `rawShuffle`. -/
def shuffleEnv : String → Option RawScript := fun id =>
  if id = "shuffle" then some rawShuffle else none

/-- The definition the cache holds after loading `rawShuffle`. -/
def shuffleObj : ScriptObject :=
  { scriptId := "shuffle", name := "Shuffle", duration := 9,
    timeline := [⟨1, "dart", none⟩, ⟨1, "shake", none⟩, ⟨2, "blink", none⟩],
    interactions := none }

/-- Witness for C7 on `rawShuffle`: the cached timeline is sorted and the
two `time = 1` entries keep their input order. -/
theorem loadScript_timeline_sorted_stable_witness :
    (loadScript [] shuffleEnv "shuffle").2 = some shuffleObj
      ∧ shuffleObj.timeline.Pairwise (fun a b => a.time ≤ b.time)
      ∧ shuffleObj.timeline.filter (fun a => a.time = (1 : ℚ))
          = ((rawShuffle.timeline.getD []).map toEntry).filter
              (fun a => a.time = (1 : ℚ)) := by
  have h := loadScript_timeline_sorted_stable [] shuffleEnv "shuffle"
    (loadScript [] shuffleEnv "shuffle").1 shuffleObj rawShuffle rfl rfl (by decide)
  exact ⟨by decide, h.1, h.2 1⟩

/-! ## C6 -/

/-- C6: for a script accepted on a fresh load whose raw definition carries
no `duration` field, the stored duration is
`lastEntry.time + (lastEntry.params.duration ?? 0)` computed on the last
entry of the *sorted* timeline.  (The source uses `|| 0`, which agrees with
`?? 0` on every numeric value.) -/
theorem loadScript_duration_from_last_entry
    (store : ScriptStore) (env : String → Option RawScript) (scriptId : String)
    (store' : ScriptStore) (obj : ScriptObject) (raw : RawScript) (last : Entry)
    (hmiss : findA scriptId store = none) (henv : env scriptId = some raw)
    (hdur : raw.duration = none)
    (hload : loadScript store env scriptId = (store', some obj))
    (hlast : obj.timeline.getLast? = some last) :
    obj.duration = last.time + (last.params.bind Params.duration).getD 0 := by
  rcases hv : validateScript raw with _ | _
  · exfalso
    simp [loadScript, hmiss, henv, hv] at hload
  · rcases hd : computeDuration raw.duration (sortTimeline (raw.timeline.getD []))
        with _ | dur
    · exfalso
      simp [loadScript, hmiss, henv, hv, hd] at hload
    · simp only [loadScript, hmiss, henv, hv, if_true, hd, Prod.mk.injEq,
        Option.some.injEq] at hload
      obtain ⟨-, ho⟩ := hload
      subst ho
      simp only at hlast
      rw [List.getLast?_map] at hlast
      rcases hl : (sortTimeline (raw.timeline.getD [])).getLast? with _ | rawLast
      · rw [hl] at hlast
        exact absurd hlast (by simp)
      · rw [hl] at hlast
        rw [hdur, computeDuration, durationFromTimeline, hl] at hd
        simp only [Option.map_some', Option.some.injEq] at hlast hd
        subst hlast
        simp only
        rw [← hd]
        rfl

/-- A two-entry raw script without a declared duration; its last sorted
entry sits at 4 s with a params duration of 2 s. -/
def rawTail : RawScript :=
  { scriptId := some "tail"
    name := some "Tail"
    timeline := some
      [⟨.num 4, some "blink", some ⟨some 2, []⟩⟩,
       ⟨.num 0, some "dart", none⟩] }

/-- A directory serving only `rawTail`. -/
def tailEnv : String → Option RawScript := fun _ => some rawTail

/-- The definition stored for `rawTail`. -/
def tailObj : ScriptObject :=
  { scriptId := "tail"
    name := "Tail"
    duration := 6
    timeline := [⟨0, "dart", none⟩, ⟨4, "blink", some ⟨some 2, []⟩⟩]
    interactions := none }

/-- Witness for C6: `rawTail` is stored with duration 4 + 2 = 6 s. -/
theorem loadScript_duration_from_last_entry_witness :
    (loadScript [] tailEnv "tail").2.map ScriptObject.duration = some 6 := by
  have h := loadScript_duration_from_last_entry [] tailEnv "tail"
    (loadScript [] tailEnv "tail").1 tailObj rawTail
    ⟨4, "blink", some ⟨some 2, []⟩⟩
    rfl rfl rfl (by decide) (by decide)
  have hv : (loadScript [] tailEnv "tail").2 = some tailObj := by decide
  rw [hv, Option.map_some']
  rw [h]
  decide

/-! ## C4 -/

/-- The raw script of C4's counterexample: an empty timeline — which the
claim says must be rejected — together with a declared duration. -/
def rawEmptyTimeline : RawScript :=
  { scriptId := some "emptyish", name := some "Emptyish", duration := some 5,
    timeline := some [] }

/-- A directory serving only `rawEmptyTimeline`. -/
def emptyTimelineEnv : String → Option RawScript := fun id =>
  if id = "emptyish" then some rawEmptyTimeline else none

/-- C4 counterexample: a script with an *empty timeline* (one of the
violations the claim says `load` must reject) is accepted: `load` returns a
definition and caches it.  (A negative `time` is likewise accepted, since
`validateScript` only tests `typeof time === 'number'`.) -/
theorem loadScript_accepts_empty_timeline :
    (loadScript [] emptyTimelineEnv "emptyish").2
        = some { scriptId := "emptyish", name := "Emptyish", duration := 5,
                 timeline := [], interactions := none }
      ∧ (loadScript [] emptyTimelineEnv "emptyish").1.length = 1 := by
  constructor <;> decide

/-- C4 amended: `load` fails with the `null` sentinel — propagating no
exception and caching nothing — exactly on the failures the code tests for:
whenever `validateScript` rejects the definition (missing/empty `scriptId`
or `name`, `timeline` not an array, a non-numeric `time`, or an absent or
empty `action`), and also when the timeline is empty while no `duration`
field is declared (the thrown `TypeError` is caught).  An empty timeline
with a declared non-zero duration, or a negative `time`, is accepted. -/
theorem loadScript_invalid_returns_sentinel
    (store : ScriptStore) (env : String → Option RawScript) (scriptId : String)
    (raw : RawScript)
    (hmiss : findA scriptId store = none) (henv : env scriptId = some raw)
    (h : validateScript raw = false
      ∨ (raw.timeline = some [] ∧ raw.duration = none)) :
    loadScript store env scriptId = (store, none) := by
  rcases h with hval | ⟨htl, hdur⟩
  · simp [loadScript, hmiss, henv, hval]
  · rcases hv : validateScript raw with _ | _
    · simp [loadScript, hmiss, henv, hv]
    · simp [loadScript, hmiss, henv, hv, htl, hdur, computeDuration,
        sortTimeline, durationFromTimeline]

/-- A raw script with a missing `name`. -/
def rawNameless : RawScript :=
  { scriptId := some "bad"
    name := none
    timeline := some [] }

/-- A directory serving only `rawNameless`. -/
def namelessEnv : String → Option RawScript := fun _ => some rawNameless

/-- Witness for C4's amended claim: a raw script with a missing `name`
fails validation and `load` returns the sentinel with an unchanged (still
empty) cache. -/
theorem loadScript_invalid_returns_sentinel_witness :
    loadScript [] namelessEnv "bad" = ([], none) :=
  loadScript_invalid_returns_sentinel [] namelessEnv "bad" rawNameless
    rfl rfl (Or.inl (by decide))

/-! ## C8 -/

/-- C8: for a probability table with non-negative weights and a uniform
draw `r ∈ [0, 1)`, `weightedRandomChoice` walks the table in insertion
order accumulating mass and returns the first key whose cumulative mass
strictly exceeds `r`, falling back to the table's first key when the
accumulated mass never exceeds `r`.  (`specWeightedChoice` is that
description written out directly; the equality in fact holds for every
table and draw.) -/
theorem weightedRandomChoice_eq_specWeightedChoice
    (weights : List (String × ℚ)) (r : ℚ)
    (_hw : ∀ p ∈ weights, 0 ≤ p.2) (_h0 : 0 ≤ r) (_h1 : r < 1) :
    weightedRandomChoice weights r = specWeightedChoice weights r := by
  rw [weightedRandomChoice, specWeightedChoice, firstCumExceeding,
    wrcLoop_eq_find]
  have hz : (fun i => decide (r < 0 + cumulativeMass weights i))
      = fun i => decide (r < cumulativeMass weights i) := by
    funext i
    rw [zero_add]
  rw [hz]
  rcases hfind : (List.range weights.length).find?
      (fun i => decide (r < cumulativeMass weights i)) with _ | i
  · rfl
  · have hi : i < weights.length :=
      List.mem_range.mp (List.mem_of_find?_eq_some hfind)
    simp [List.getElem?_eq_getElem hi]

/-- Witness for C8: the active-mode table `{autonomous 0.5, tracking 0.2,
scripted 0.3}` with draw 0.9 — the walk and the cumulative-mass description
agree (both select `scripted`). -/
theorem weightedRandomChoice_eq_specWeightedChoice_witness :
    (∀ p ∈ [("autonomous", (0.5 : ℚ)), ("tracking", 0.2), ("scripted", 0.3)],
        0 ≤ p.2)
      ∧ (0 : ℚ) ≤ 0.9 ∧ (0.9 : ℚ) < 1
      ∧ weightedRandomChoice
            [("autonomous", 0.5), ("tracking", 0.2), ("scripted", 0.3)] 0.9
          = specWeightedChoice
              [("autonomous", 0.5), ("tracking", 0.2), ("scripted", 0.3)] 0.9
      ∧ weightedRandomChoice
            [("autonomous", 0.5), ("tracking", 0.2), ("scripted", 0.3)] 0.9
          = some "scripted" :=
  ⟨by decide, by decide, by decide,
    weightedRandomChoice_eq_specWeightedChoice _ _ (by decide) (by decide)
      (by decide),
    by decide⟩

/-! ## C2 -/

/-- An empty script directory. -/
def noEnv : String → Option RawScript := fun _ => none

theorem setEyeBehavior_tracking_of_autonomous {st : EngineState} {idx : Nat}
    {e : EyeSet} (he : getEyeSet st idx = some e)
    (hb : e.behavior = .autonomous) :
    setEyeBehavior st idx .tracking
      = { putEyeSet st idx
            { e with
              animationsRunning := false
              behavior := .tracking
              lastBehaviorChange := st.now
              trackingRunning := true } with
          events := .saveState :: st.events } := by
  have hlen := getEyeSet_isSome_lt he
  simp only [setEyeBehavior, he, hb]
  rw [getEyeSet_putEyeSet_self _ hlen]
  simp [putEyeSet, List.set_set]

theorem setEyeBehavior_autonomous_of_tracking {st : EngineState} {idx : Nat}
    {e : EyeSet} (he : getEyeSet st idx = some e)
    (hb : e.behavior = .tracking) :
    setEyeBehavior st idx .autonomous
      = { putEyeSet st idx
            { e with
              trackingRunning := false
              behavior := .autonomous
              lastBehaviorChange := st.now
              animationsRunning := true } with
          events := .saveState :: st.events } := by
  have hlen := getEyeSet_isSome_lt he
  simp only [setEyeBehavior, he, hb]
  rw [getEyeSet_putEyeSet_self _ hlen]
  simp [putEyeSet, List.set_set]

theorem cycleBehavior_from_autonomous {env : String → Option RawScript}
    {st : EngineState} {idx : Nat} {e : EyeSet}
    (he : getEyeSet st idx = some e) (hb : e.behavior = .autonomous) :
    cycleBehavior env st idx = setEyeBehavior st idx .tracking := by
  simp only [cycleBehavior, he, hb]
  have hnext : behaviorCycleList.getD
      ((behaviorCycleList.indexOf BehaviorType.autonomous + 1)
        % behaviorCycleList.length) .autonomous = .tracking := by decide
  rw [hnext]

theorem cycleBehavior_from_tracking {env : String → Option RawScript}
    {st : EngineState} {idx : Nat} {e : EyeSet}
    (he : getEyeSet st idx = some e) (hb : e.behavior = .tracking)
    (hd : findA idx st.defaultScripts = none) :
    cycleBehavior env st idx = setEyeBehavior st idx .autonomous := by
  simp only [cycleBehavior, he, hb]
  have hnext : behaviorCycleList.getD
      ((behaviorCycleList.indexOf BehaviorType.tracking + 1)
        % behaviorCycleList.length) .autonomous = .scripted := by decide
  rw [hnext, hd]

/-- C2 counterexample: from a visible autonomous eye set with no default
script assigned, three `cycleBehavior` calls end in `tracking`, not
`autonomous` as the claim states. -/
theorem cycleBehavior_thrice_ends_tracking :
    (getEyeSet (cycleBehavior noEnv (cycleBehavior noEnv
          (cycleBehavior noEnv sampleState 0) 0) 0) 0).map EyeSet.behavior
        = some .tracking
      ∧ (getEyeSet (cycleBehavior noEnv (cycleBehavior noEnv
            (cycleBehavior noEnv sampleState 0) 0) 0) 0).map EyeSet.behavior
          ≠ some .autonomous := by
  constructor <;> decide

/-- C2 amended: with no default script assigned, the scripted leg of the
cycle falls straight back to `autonomous`, so the cycle from `autonomous`
has period two — *two* applications of `cycleBehavior` return the eye set
to `autonomous`, while three leave it in `tracking`. -/
theorem cycleBehavior_cycle_without_default
    (env : String → Option RawScript) (st : EngineState) (idx : Nat)
    (e : EyeSet) (he : getEyeSet st idx = some e)
    (hb : e.behavior = .autonomous)
    (hd : findA idx st.defaultScripts = none) :
    (getEyeSet (cycleBehavior env (cycleBehavior env st idx) idx) idx).map
        EyeSet.behavior = some .autonomous
      ∧ (getEyeSet (cycleBehavior env (cycleBehavior env
            (cycleBehavior env st idx) idx) idx) idx).map EyeSet.behavior
          = some .tracking := by
  have hlen := getEyeSet_isSome_lt he
  rw [cycleBehavior_from_autonomous he hb,
    setEyeBehavior_tracking_of_autonomous he hb]
  set e1 : EyeSet :=
    { e with
      animationsRunning := false
      behavior := .tracking
      lastBehaviorChange := st.now
      trackingRunning := true } with he1
  set st1 : EngineState :=
    { putEyeSet st idx e1 with events := .saveState :: st.events } with hst1
  have hg1 : getEyeSet st1 idx = some e1 := by
    rw [hst1]
    show getEyeSet (putEyeSet st idx e1) idx = some e1
    exact getEyeSet_putEyeSet_self _ hlen
  have hd1 : findA idx st1.defaultScripts = none := hd
  have hlen1 : idx < st1.eyeSets.length := by
    rw [hst1]
    show idx < (putEyeSet st idx e1).eyeSets.length
    rw [length_putEyeSet]
    exact hlen
  rw [cycleBehavior_from_tracking hg1 (by rw [he1]) hd1,
    setEyeBehavior_autonomous_of_tracking hg1 (by rw [he1])]
  set e2 : EyeSet :=
    { e1 with
      trackingRunning := false
      behavior := .autonomous
      lastBehaviorChange := st1.now
      animationsRunning := true } with he2
  set st2 : EngineState :=
    { putEyeSet st1 idx e2 with events := .saveState :: st1.events } with hst2
  have hg2 : getEyeSet st2 idx = some e2 := by
    rw [hst2]
    show getEyeSet (putEyeSet st1 idx e2) idx = some e2
    exact getEyeSet_putEyeSet_self _ hlen1
  have hlen2 : idx < st2.eyeSets.length := by
    rw [hst2]
    show idx < (putEyeSet st1 idx e2).eyeSets.length
    rw [length_putEyeSet]
    exact hlen1
  refine ⟨by rw [hg2, he2]; rfl, ?_⟩
  rw [cycleBehavior_from_autonomous hg2 (by rw [he2]),
    setEyeBehavior_tracking_of_autonomous hg2 (by rw [he2])]
  set e3 : EyeSet :=
    { e2 with
      animationsRunning := false
      behavior := .tracking
      lastBehaviorChange := st2.now
      trackingRunning := true } with he3
  have hg3 : getEyeSet
      { putEyeSet st2 idx e3 with events := .saveState :: st2.events } idx
        = some e3 := by
    show getEyeSet (putEyeSet st2 idx e3) idx = some e3
    exact getEyeSet_putEyeSet_self _ hlen2
  rw [hg3, he3]
  rfl

/-- Witness for C2's amended claim at the concrete ground state. -/
theorem cycleBehavior_cycle_without_default_witness :
    (getEyeSet (cycleBehavior noEnv (cycleBehavior noEnv sampleState 0) 0)
          0).map EyeSet.behavior = some .autonomous
      ∧ (getEyeSet (cycleBehavior noEnv (cycleBehavior noEnv
            (cycleBehavior noEnv sampleState 0) 0) 0) 0).map EyeSet.behavior
          = some .tracking :=
  cycleBehavior_cycle_without_default noEnv sampleState 0 sampleEyeSet
    rfl rfl rfl

/-! ## C9 -/

theorem findA_setA_self {α β : Type} [DecidableEq α] (k : α) (v : β)
    (l : List (α × β)) : findA k (setA k v l) = some v := by
  induction l with
  | nil => simp [findA, setA]
  | cons kv rest ih =>
    obtain ⟨k', v'⟩ := kv
    by_cases hk : k = k'
    · simp [findA, setA, hk]
    · simp [findA, setA, hk, ih]

/-- Two visible eye sets, for the interaction scenario. -/
def duetState : EngineState :=
  { sampleState with eyeSets := [some sampleEyeSet, some sampleEyeSet] }

/-- `executeScript(0, "duet")`: parent instance 0 holds handles 0
(timeline `blink` at 10 s), 1 (interaction spawn on set 1 at 1 s) and 2
(completion at 20 s). -/
def duetStarted : EngineState := (executeScript sampleEnv duetState 0 "duet").1

/-- Firing handle 1 starts the child instance 1 on set 1, which holds its
own handles 3, 4 and 5. -/
def duetChildStarted : EngineState := fireTimer sampleEnv duetStarted 1

/-- Manually stopping the parent after the child has started. -/
def duetStopped : EngineState := stopScript duetChildStarted 0

/-- C9 counterexample: `stopScript` on the parent cancels only the parent's
own handles.  The spawned child interaction instance — tracked in the
parent's `interactionInstances` — keeps all three of its scheduled handles
pending and stays registered as set 1's running script, refuting
"cancel every remaining scheduled timer handle owned by that instance
(including the handles of any spawned child interaction instances)". -/
theorem stopScript_leaves_child_handles_pending :
    (findA 0 duetStopped.instances).map ScriptInstance.interactionInstances
        = some [1]
      ∧ (findA 1 duetStopped.instances).map ScriptInstance.scheduledActions
          = some [3, 4, 5]
      ∧ duetStopped.timers.map Timer.id = [3, 4, 5]
      ∧ (getEyeSet duetStopped 1).map EyeSet.currentScript = some (some 1) := by
  refine ⟨?_, ?_, ?_, ?_⟩ <;> decide

/-- C9 amended: `completeScript` — reached both by manual `stopScript` and
by the completion timer — cancels every handle in the instance's *own*
`scheduledActions` (timeline actions, unfired interaction spawns and the
completion timer), marks the instance stopped, invokes `onComplete` when
set, clears `currentScript`, resets the behavior to `autonomous` with a
fresh `lastBehaviorChange`, and resumes the autonomous animations; handles
owned by already-spawned child interaction instances are *not* cancelled. -/
theorem completeScript_cancels_own_handles
    (st : EngineState) (idx : Nat) (e : EyeSet) (instId : Nat)
    (inst : ScriptInstance)
    (he : getEyeSet st idx = some e) (hc : e.currentScript = some instId)
    (hi : findA instId st.instances = some inst) :
    (∀ tid ∈ inst.scheduledActions,
        ∀ t ∈ (completeScript st idx).timers, t.id ≠ tid)
      ∧ getEyeSet (completeScript st idx) idx
          = some { e with
              currentScript := none
              behavior := .autonomous
              lastBehaviorChange := st.now
              animationsRunning := true }
      ∧ findA instId (completeScript st idx).instances
          = some { inst with isRunning := false, scheduledActions := [] }
      ∧ (inst.hasOnComplete = true →
          Event.onCompleteInvoked idx ∈ (completeScript st idx).events)
      ∧ stopScript st idx = completeScript st idx := by
  have hlen := getEyeSet_isSome_lt he
  have hstop : stopScript st idx = completeScript st idx := by
    simp [stopScript, he, hc]
  refine ⟨?_, ?_, ?_, ?_, hstop⟩
  · cases hoc : inst.hasOnComplete <;>
      simp only [completeScript, he, hc, hi, hoc, if_true, if_false,
        Bool.false_eq_true] <;>
      exact fun tid htid t ht => not_mem_of_filter_not_contains ht htid
  · cases hoc : inst.hasOnComplete <;>
      simp only [completeScript, he, hc, hi, hoc, if_true, if_false,
        Bool.false_eq_true] <;>
      exact getEyeSet_putEyeSet_self _ hlen
  · cases hoc : inst.hasOnComplete <;>
      simp only [completeScript, he, hc, hi, hoc, if_true, if_false,
        Bool.false_eq_true] <;>
      exact findA_setA_self _ _ _
  · cases hoc : inst.hasOnComplete <;>
      simp only [completeScript, he, hc, hi, hoc, if_true, if_false,
        Bool.false_eq_true]
    · simp
    · exact fun _ => List.mem_cons_self _ _

/-- `executeScript(0, "blinky")` on the ground state: one running instance
with handles 0 (timeline) and 1 (completion). -/
def soloStarted : EngineState := (executeScript sampleEnv sampleState 0 "blinky").1

/-- The cached definition of `rawBlink`. -/
def blinkyObj : ScriptObject :=
  { scriptId := "blinky", name := "Blinky", duration := 6,
    timeline := [⟨5, "blink", none⟩], interactions := none }

/-- Eye set 0 of `soloStarted`. -/
def soloEyeSetAfter : EyeSet :=
  { visible := true, behavior := .scripted, currentScript := some 0,
    lastBehaviorChange := 1000, animationsRunning := false,
    trackingRunning := false }

/-- The running instance of `soloStarted`. -/
def soloInstAfter : ScriptInstance :=
  { scriptObject := blinkyObj, setIndex := 0, startTime := 1000,
    scheduledActions := [0, 1], interactionInstances := [], isRunning := true,
    hasOnComplete := false }

/-- Witness for C9's amended claim on the concrete solo scenario. -/
theorem completeScript_cancels_own_handles_witness :
    (∀ tid ∈ soloInstAfter.scheduledActions,
        ∀ t ∈ (completeScript soloStarted 0).timers, t.id ≠ tid)
      ∧ getEyeSet (completeScript soloStarted 0) 0
          = some { soloEyeSetAfter with
              currentScript := none
              behavior := .autonomous
              lastBehaviorChange := soloStarted.now
              animationsRunning := true }
      ∧ stopScript soloStarted 0 = completeScript soloStarted 0 := by
  have h := completeScript_cancels_own_handles soloStarted 0 soloEyeSetAfter 0
    soloInstAfter (by decide) (by decide) (by decide)
  exact ⟨h.1, h.2.1, h.2.2.2.2⟩

/-! ## C3 -/

/-- Director scenario: one visible autonomous eye set, cooldown and
behavior-change debounce both elapsed, an *empty* script cache (so no
script is eligible), and a random stream whose single draw 0.9 lands in the
`scripted` band of the default probabilities. -/
def directorState0 : EngineState :=
  { sampleState with
    now := 10000
    randoms := [0.9]
    director := { enabled := true } }

/-- C3 counterexample: the evaluation draws `scripted`,
`triggerDirectorScript` selects no script (nothing is loaded, so
`executeScript` is never invoked and no state of any eye set changes), and
the director still stamps `lastScriptTime` to the evaluation time —
refuting "when triggerDirectorScript selects no eligible script,
lastScriptTime is left unchanged". -/
theorem evaluateDirector_stamps_cooldown_without_script :
    directorState0.director.lastScriptTime = 0
      ∧ (evaluateDirector noEnv directorState0).director.lastScriptTime = 10000
      ∧ (evaluateDirector noEnv directorState0).eyeSets = directorState0.eyeSets
      ∧ (evaluateDirector noEnv directorState0).instances = [] := by
  refine ⟨?_, ?_, ?_, ?_⟩ <;> decide

/-- C3 amended: the scripted outcome of the per-eye-set draw stamps the
single director-global `lastScriptTime` with the evaluation's `now`
unconditionally — after `triggerDirectorScript` returns, whether or not it
selected a script and invoked `executeScript`.  (The global-not-per-eye-set
part of the claim is as stated: the timestamp is one field of the
`DirectorState` singleton.) -/
theorem directorStepSet_stamps_on_scripted
    (env : String → Option RawScript) (now : ℚ) (visibleCount : Nat)
    (st : EngineState) (idx : Nat) (e : EyeSet) (r : ℚ) (rest : List ℚ)
    (he : getEyeSet st idx = some e) (hcs : e.currentScript = none)
    (hdb : ¬ (now - e.lastBehaviorChange < 3000))
    (hr : st.randoms = r :: rest)
    (hdraw : weightedRandomChoice st.director.triggerProbabilities r
      = some "scripted") :
    (directorStepSet env now visibleCount st idx).director.lastScriptTime
      = now := by
  simp only [directorStepSet, he, hcs, Option.isSome_none,
    decide_eq_false hdb, Bool.or_self, Bool.false_eq_true, if_false,
    popRand, hr]
  rw [show ({ st with randoms := rest } : EngineState).director = st.director
      from rfl, hdraw]
  simp

/-- Witness for C3's amended claim on the concrete director scenario. -/
theorem directorStepSet_stamps_on_scripted_witness :
    weightedRandomChoice directorState0.director.triggerProbabilities 0.9
        = some "scripted"
      ∧ (directorStepSet noEnv 10000 1 directorState0 0).director.lastScriptTime
          = 10000 :=
  ⟨by decide,
    directorStepSet_stamps_on_scripted noEnv 10000 1 directorState0 0
      sampleEyeSet 0.9 [] rfl rfl (by decide) rfl (by decide)⟩

/-! ## C1 -/

/-- Restarting: `executeScript(0, "wavey")` while instance 0 (script
`blinky`, handles 0 and 1) is still running on eye set 0. -/
def restartedState : EngineState :=
  (executeScript sampleEnv soloStarted 0 "wavey").1

/-- C1 (the code bug): `executeScript` on an eye set with a running
instance never cancels the prior instance's scheduled callbacks — it calls
only `stopEyeSetAnimations`, not `stopScript`.  After the restart returns,
the old instance still owns handles 0 (timeline) and 1 (completion), both
still pending next to the new instance's handles 2 and 3; firing handle 0
still runs the *old* script's `blink` action; and firing the old
completion handle 1 tears down the *new* instance (cancelling its handles
and resetting the set to autonomous) long before the new script's own
completion time. -/
theorem executeScript_restart_leaves_old_callbacks :
    (findA 0 restartedState.instances).map ScriptInstance.scheduledActions
        = some [0, 1]
      ∧ restartedState.timers.map Timer.id = [0, 1, 2, 3]
      ∧ (getEyeSet restartedState 0).map EyeSet.currentScript = some (some 1)
      ∧ (fireTimer sampleEnv restartedState 0).events
          = [.handlerInvoked 0 "blink" ⟨none, []⟩]
      ∧ (fireTimer sampleEnv restartedState 1).timers.map Timer.id = [0]
      ∧ (getEyeSet (fireTimer sampleEnv restartedState 1) 0).map
          EyeSet.currentScript = some none := by
  refine ⟨?_, ?_, ?_, ?_, ?_, ?_⟩ <;> decide

end Eyes
